import Mathlib

/-!
# Verification of `verify_sdcard_copied`

A shallow embedding of the two variants of the tool
(`verify_sdcard_copied_blake3.py` and `verify_sdcard_copied_exif.py`)
together with proofs about the embedded definitions.

Modelling conventions:

* Python `float` timestamps (`os.path.getmtime`, `datetime.timestamp()`) are
  modelled as `Int`; only their ordering and Python truthiness (zero is falsy)
  matter to the program.
* The external collaborators (the `blake3` hasher, `exifread`, `os.walk`,
  `os.path.getmtime`, `datetime.strptime`) are modelled as oracles: each file
  record carries the outcome the external call would produce for it, with
  `none` standing for a raised exception.  `os.walk` of the target directory is
  modelled by its output: the list of visited directories in visiting order,
  each carrying its path relative to the walk root (the value
  `os.path.relpath(root, pc_dir)` computes) and its file list.  The compiled
  exclusion regex is modelled by its `search` predicate on relative paths
  (`none` when the `--exclude` argument is the empty string).
* Python `dict` is modelled as an association list in insertion order whose
  keys are unique (`PyDictNodup`); `dict` assignment, `in`, and `del`
  are `dictInsert`, `dictContains`, and `dictErase`.
* Values that Python prints are recorded as structured `Msg` entries in a log
  where a claim refers to them (the builders and `main`); the purely
  presentational progress output of the traversal is not modelled.
* Traversal functions additionally return a `trace`: the list of candidates
  whose fingerprint was actually computed, in computation order.  This is
  instrumentation only; it does not influence control flow or results.
-/

/-- Python `str.lower()` (per-character case folding suffices for the
extension literals the program uses). -/
def lowerStr (s : String) : String := ⟨s.data.map Char.toLower⟩

/-- Python `str.endswith(suffix)` for a single suffix. -/
def strEndsWith (s suffix : String) : Bool := List.isSuffixOf suffix.data s.data

/-- Python `str.endswith(tuple_of_suffixes)`: true iff some suffix matches. -/
def endsWithAny (s : String) (exts : List String) : Bool :=
  exts.any (fun e => strEndsWith s e)

/-- Prefix test on strings (used to speak about subtree relative paths). -/
def strHasPrefix (p s : String) : Bool := List.isPrefixOf p.data s.data

/-- `rel` lies in the subtree rooted at the directory with relative path `r`:
it is `r` itself or extends it by a path separator. -/
def isUnder (r rel : String) : Bool := decide (rel = r) || strHasPrefix (r ++ "/") rel

section PyDict

variable {K V : Type}

/-- A Python `dict` as an insertion-ordered association list. -/
abbrev PyDict (K V : Type) : Type := List (K × V)

/-- Python `k in d`. -/
def dictContains [DecidableEq K] : PyDict K V → K → Bool
  | [], _ => false
  | p :: d, k => decide (p.1 = k) || dictContains d k

/-- Python `d[k]` (defined lookup). -/
def dictLookup [DecidableEq K] : PyDict K V → K → Option V
  | [], _ => none
  | p :: d, k => if p.1 = k then some p.2 else dictLookup d k

/-- Python `d[k] = v`: overwrite the value in place when the key exists,
append a new entry at the end otherwise (insertion-order semantics). -/
def dictInsert [DecidableEq K] : PyDict K V → K → V → PyDict K V
  | [], k, v => [(k, v)]
  | p :: d, k, v => if p.1 = k then (k, v) :: d else p :: dictInsert d k v

/-- Python `del d[k]`. -/
def dictErase [DecidableEq K] : PyDict K V → K → PyDict K V
  | [], _ => []
  | p :: d, k => if p.1 = k then dictErase d k else p :: dictErase d k

/-- The keys of a Python dict are pairwise distinct. -/
def PyDictNodup (d : PyDict K V) : Prop := (d.map Prod.fst).Nodup

end PyDict

/-- The EXIF tags `get_image_metadata` reads from `exifread.process_file`;
`none` models an absent tag (Python `tags.get(...)` returning `None`),
`some s` the tag's printable value (`str(tag)`). -/
structure ExifTags where
  dateTimeOriginal : Option String
  subSecTimeOriginal : Option String
  imageModel : Option String
  bodySerialNumber : Option String
deriving DecidableEq

/-- A fingerprint value as produced by the two backends of the exif variant:
a metadata-identifier string for images, a Python `hash` integer for videos. -/
inductive Fp where
  | str (s : String)
  | int (n : Int)
deriving DecidableEq

/-- A file on disk, together with the outcomes of the external calls the
program may make on it (`none` models a raised exception):
`mtimeResult` for `os.path.getmtime`, `exifResult` for opening the file and
running `exifread.process_file`, `videoHash` for reading the first 8KB and
applying Python `hash`, and `hashResult` for `get_file_hash` (blake3). -/
structure SFile where
  name : String
  path : String
  mtimeResult : Option Int
  exifResult : Option ExifTags
  videoHash : Option Int
  hashResult : Option String
deriving DecidableEq

/-- Structured stand-ins for the messages the program prints. -/
inductive Msg where
  | errHash (path : String)
  | errExif (path : String)
  | errVideo (path : String)
  | warnDup (newPath : String) (oldPath : Option String)
  | warnCompared (unique total : Nat)
  | infoEarliest (ts : Int)
  | infoNoEarliest
  | infoNoFiles
  | infoAllFound
  | warnFound (found total : Nat)
  | reportMissing (paths : List String)
deriving DecidableEq

/-- Python truthiness of an optional string (`None` and `''` are falsy). -/
def truthyStr : Option String → Bool
  | none => false
  | some s => decide (s ≠ "")

/-- Python truthiness of an optional fingerprint value (`None`, `''` and the
integer `0` are falsy). -/
def truthyFp : Option Fp → Bool
  | none => false
  | some (.str s) => decide (s ≠ "")
  | some (.int n) => decide (n ≠ 0)

/-- Python truthiness of an optional timestamp (`None` and `0.0` are falsy). -/
def truthyTs : Option Int → Bool
  | none => false
  | some t => decide (t ≠ 0)

/-! ## `verify_sdcard_copied_blake3.py` -/

/-- `get_file_hash`: the blake3 hex digest of the file's content, or `None`
when reading raised (the accompanying error print is recorded by the caller
model at the call site). -/
def get_file_hash (f : SFile) : Option String := f.hashResult

/-- State of `build_sdcard_hashmap`'s loop: the `sdcard_hashes` dict (keyed
by the Python value `get_file_hash` returned) and the printed messages. -/
structure BuildB where
  sdcard_hashes : PyDict (Option String) String
  log : List Msg
deriving DecidableEq

/-- One iteration of the file loop in `build_sdcard_hashmap` (lines 27-35):
filter by lowercased extension, hash, and insert when the hash is truthy. -/
def buildBStep (extensions : List String) (st : BuildB) (f : SFile) : BuildB :=
  if endsWithAny (lowerStr f.name) extensions then
    let file_hash := get_file_hash f
    let st := if file_hash.isNone then { st with log := st.log ++ [.errHash f.path] }
              else st
    if truthyStr file_hash then
      { st with sdcard_hashes := dictInsert st.sdcard_hashes file_hash f.path }
    else st
  else st

/-- `build_sdcard_hashmap` over the flattened `os.walk` file sequence of the
SD card directory. -/
def build_sdcard_hashmap (extensions : List String) (files : List SFile) : BuildB :=
  files.foldl (buildBStep extensions) ⟨[], []⟩

/-- One visited directory of `os.walk(pc_dir)`: its path relative to the walk
root (the value `os.path.relpath(root, pc_dir)` yields, `"."` for the root
itself) and its regular files, in visiting order. -/
structure WalkEntry where
  rel : String
  files : List SFile
deriving DecidableEq

/-- `regex.search(rel_root)` under the model of the compiled exclusion regex:
`none` models `regex = None` (empty `--exclude`), in which case the `and`
short-circuits to no exclusion. -/
def matchGuard (excl : Option (String → Bool)) (rel : String) : Bool :=
  match excl with
  | none => false
  | some g => g rel

/-- The enumeration phase shared verbatim by both variants
(`traverse_pc_directory`, blake3 lines 40-52 / exif lines 84-97): skip a
visited directory whose relative path matches the exclusion regex, keep
files whose lowercased name ends in one of the extensions and whose
modification time is readable.  (The per-file error print for an unreadable
modification time is presentation only and is not recorded.) -/
def collectCandidates (excl : Option (String → Bool)) (extensions : List String)
    (walk : List WalkEntry) : List (SFile × Int) :=
  walk.flatMap (fun e =>
    if matchGuard excl e.rel then []
    else e.files.filterMap (fun f =>
      if endsWithAny (lowerStr f.name) extensions then
        f.mtimeResult.map (fun m => (f, m))
      else none))

/-- The sort order of `file_list.sort(key=lambda x: x[1], reverse=True)`:
non-increasing modification time.  `insertionSort` with this relation is a
stable sort, hence produces the same list as Python's stable `list.sort`. -/
def mtimeDesc (a b : SFile × Int) : Prop := b.2 ≤ a.2

instance : DecidableRel mtimeDesc := fun a b => Int.decLe b.2 a.2

instance : IsTotal (SFile × Int) mtimeDesc := ⟨fun a b => le_total b.2 a.2⟩

instance : IsTrans (SFile × Int) mtimeDesc := ⟨fun _ _ _ h1 h2 => le_trans h2 h1⟩

/-- Result of the blake3 scanning loop.  `ret` is the Python return value of
`traverse_pc_directory` — the source returns plain `return` or falls off the
end, so it is `None` on every path; the mutated `sdcard_hashes` dict is the
observable output.  `trace` instruments which candidates were hashed. -/
structure ScanB where
  ret : Option Nat
  sdcard_hashes : PyDict (Option String) String
  trace : List (SFile × Int)
deriving DecidableEq

/-- The scanning loop of the blake3 `traverse_pc_directory` (lines 54-67):
hash each candidate in order, delete a matching key, stop when the dict
becomes empty. -/
def scanBlake3 : List (SFile × Int) → PyDict (Option String) String → ScanB
  | [], m => ⟨none, m, []⟩
  | c :: rest, m =>
    let file_hash := get_file_hash c.1
    if dictContains m file_hash then
      let m2 := dictErase m file_hash
      if m2.isEmpty then ⟨none, m2, [c]⟩
      else
        let r := scanBlake3 rest m2
        ⟨r.ret, r.sdcard_hashes, c :: r.trace⟩
    else
      let r := scanBlake3 rest m
      ⟨r.ret, r.sdcard_hashes, c :: r.trace⟩

/-- The blake3 `traverse_pc_directory`: enumerate, sort newest-first, scan. -/
def traverse_pc_directory_blake3 (excl : Option (String → Bool))
    (extensions : List String) (walk : List WalkEntry)
    (sdcard_hashes : PyDict (Option String) String) : ScanB :=
  scanBlake3 (List.insertionSort mtimeDesc (collectCandidates excl extensions walk))
    sdcard_hashes

/-! ## `verify_sdcard_copied_exif.py` -/

/-- The `image_endings` tuple (module level, line 10). -/
def image_endings : List String := [".jpg", ".jpeg", ".png", ".cr2", ".cr3", ".nef"]

/-- Python f-string rendering of a tag that may be `None`. -/
def renderTag : Option String → String
  | none => "None"
  | some s => s

/-- The `metadata_id` f-string of `get_image_metadata` (line 22). -/
def metadataId (tags : ExifTags) : String :=
  renderTag tags.dateTimeOriginal ++ "-" ++ renderTag tags.subSecTimeOriginal ++
    " | " ++ renderTag tags.imageModel ++ " | " ++ renderTag tags.bodySerialNumber

/-- `get_image_metadata` (lines 12-32).  `parseDT` is the oracle for
`datetime.strptime(s, '%Y:%m:%d %H:%M:%S').timestamp()`; its `none` models a
raised `ValueError`, which the surrounding `except` turns into `(None, None)`,
as does a failure to open or parse the file (`f.exifResult = none`). -/
def get_image_metadata (parseDT : String → Option Int) (f : SFile) :
    Option Fp × Option Int :=
  match f.exifResult with
  | none => (none, none)
  | some tags =>
    match tags.dateTimeOriginal with
    | none => (some (.str (metadataId tags)), none)
    | some s =>
      match parseDT s with
      | none => (none, none)
      | some ts => (some (.str (metadataId tags)), some ts)

/-- `get_video_metadata` (lines 34-42): Python `hash` of the first 8KB, no
capture time; `none` models a read failure. -/
def get_video_metadata (f : SFile) : Option Fp × Option Int :=
  (f.videoHash.map Fp.int, none)

/-- State of `build_sdcard_metadata`'s loop (lines 45-47): the
`sdcard_metadata` dict keyed by the Python `metadata_id` value, the running
`earliest_capture_timestamp`, the file counter `i`, and printed messages. -/
structure BuildX where
  sdcard_metadata : PyDict (Option Fp) String
  earliest : Option Int
  count : Nat
  log : List Msg
deriving DecidableEq

/-- The image/video dispatch of `build_sdcard_metadata` (lines 53-58): the
lowercased file *name* decides which backend fingerprints the file. -/
def buildFingerprint (parseDT : String → Option Int) (f : SFile) :
    Option Fp × Option Int :=
  if endsWithAny (lowerStr f.name) image_endings then get_image_metadata parseDT f
  else get_video_metadata f

/-- One iteration of the file loop in `build_sdcard_metadata` (lines 49-65):
filter by extension, fingerprint, warn on a duplicate `metadata_id`,
overwrite the entry, and track the earliest truthy capture timestamp. -/
def buildXStep (parseDT : String → Option Int) (extensions : List String)
    (st : BuildX) (f : SFile) : BuildX :=
  if endsWithAny (lowerStr f.name) extensions then
    let st := { st with count := st.count + 1 }
    let mc := buildFingerprint parseDT f
    let metadata_id := mc.1
    let capture_timestamp := mc.2
    if truthyFp metadata_id then
      let st :=
        if dictContains st.sdcard_metadata metadata_id then
          { st with log := st.log ++
              [.warnDup f.path (dictLookup st.sdcard_metadata metadata_id)] }
        else st
      let st := { st with
        sdcard_metadata := dictInsert st.sdcard_metadata metadata_id f.path }
      if truthyTs capture_timestamp then
        match capture_timestamp, st.earliest with
        | some ts, none => { st with earliest := some ts }
        | some ts, some e =>
          if ts < e then { st with earliest := some ts } else st
        | none, _ => st
      else st
    else st
  else st

/-- `build_sdcard_metadata` (lines 44-68) over the flattened `os.walk` file
sequence of the SD card directory, including the final under-count warning
(lines 66-67). -/
def build_sdcard_metadata (parseDT : String → Option Int) (extensions : List String)
    (files : List SFile) : BuildX :=
  let st := files.foldl (buildXStep parseDT extensions) ⟨[], none, 0, []⟩
  if st.count ≠ st.sdcard_metadata.length then
    { st with log := st.log ++ [.warnCompared st.sdcard_metadata.length st.count] }
  else st

/-- The scanning loop's per-candidate fingerprint in the exif
`traverse_pc_directory` (lines 116-119): dispatch on the lowercased *path*. -/
def traversalFingerprint (parseDT : String → Option Int) (f : SFile) : Option Fp :=
  if endsWithAny (lowerStr f.path) image_endings then
    (get_image_metadata parseDT f).1
  else (get_video_metadata f).1

/-- `if earliest_capture_timestamp and mtime < earliest_capture_timestamp`
(line 106) with Python truthiness: `None` and `0.0` disable the cutoff. -/
def cutoffHit (earliest : Option Int) (mtime : Int) : Bool :=
  match earliest with
  | none => false
  | some t => decide (t ≠ 0) && decide (mtime < t)

/-- Result of the exif scanning loop: the returned `found_files` count, the
mutated `sdcard_metadata` dict, and the instrumentation `trace` of
fingerprinted candidates. -/
structure ScanX where
  found_files : Nat
  sdcard_metadata : PyDict (Option Fp) String
  trace : List (SFile × Int)
deriving DecidableEq

/-- The scanning loop of the exif `traverse_pc_directory` (lines 104-128):
stop before fingerprinting once the cutoff is hit, otherwise fingerprint,
delete a matching key, count it, and stop when the dict becomes empty. -/
def scanExif (parseDT : String → Option Int) (earliest : Option Int) :
    List (SFile × Int) → PyDict (Option Fp) String → Nat → ScanX
  | [], m, found => ⟨found, m, []⟩
  | c :: rest, m, found =>
    if cutoffHit earliest c.2 then ⟨found, m, []⟩
    else
      let metadata_id := traversalFingerprint parseDT c.1
      if dictContains m metadata_id then
        let m2 := dictErase m metadata_id
        if m2.isEmpty then ⟨found + 1, m2, [c]⟩
        else
          let r := scanExif parseDT earliest rest m2 (found + 1)
          ⟨r.found_files, r.sdcard_metadata, c :: r.trace⟩
      else
        let r := scanExif parseDT earliest rest m found
        ⟨r.found_files, r.sdcard_metadata, c :: r.trace⟩

/-- The exif `traverse_pc_directory` (lines 81-128): enumerate, sort
newest-first, scan with the optional cutoff. -/
def traverse_pc_directory_exif (parseDT : String → Option Int)
    (excl : Option (String → Bool)) (extensions : List String)
    (earliest : Option Int) (walk : List WalkEntry)
    (sdcard_metadata : PyDict (Option Fp) String) : ScanX :=
  scanExif parseDT earliest
    (List.insertionSort mtimeDesc (collectCandidates excl extensions walk))
    sdcard_metadata 0

/-! ## The two `main` functions -/

/-- Observable outcome of a `main` run: the process exit status, whether the
run took the `sys.exit()` early-exit branch for an empty catalog, and the
messages printed (excluding progress output). -/
structure MainOut where
  exitCode : Nat
  exitedEarly : Bool
  log : List Msg
deriving DecidableEq

/-- `main` of the blake3 variant (lines 69-97).  `sys.exit()` without an
argument exits with status 0; normal completion also exits 0. -/
def main_blake3 (extensions : List String) (excl : Option (String → Bool))
    (sdFiles : List SFile) (pcWalk : List WalkEntry) : MainOut :=
  let exts := extensions.map lowerStr
  let b := build_sdcard_hashmap exts sdFiles
  if b.sdcard_hashes.isEmpty then
    ⟨0, true, b.log ++ [.infoNoFiles]⟩
  else
    let t := traverse_pc_directory_blake3 excl exts pcWalk b.sdcard_hashes
    if t.sdcard_hashes.isEmpty then
      ⟨0, false, b.log ++ [.infoAllFound]⟩
    else
      ⟨0, false, b.log ++ [.reportMissing (t.sdcard_hashes.map Prod.snd)]⟩

/-- `main` of the exif variant (lines 130-165), including the
capture-time report (lines 144-148, with `if earliest_capture_timestamp:`
truthiness) and the found-count warning (lines 157-158). -/
def main_exif (parseDT : String → Option Int) (extensions : List String)
    (excl : Option (String → Bool)) (sdFiles : List SFile)
    (pcWalk : List WalkEntry) : MainOut :=
  let exts := extensions.map lowerStr
  let b := build_sdcard_metadata parseDT exts sdFiles
  let log := b.log ++
    (if truthyTs b.earliest then
      match b.earliest with
      | some t => [Msg.infoEarliest t]
      | none => [Msg.infoNoEarliest]
     else [Msg.infoNoEarliest])
  if b.sdcard_metadata.isEmpty then
    ⟨0, true, log ++ [.infoNoFiles]⟩
  else
    let looking_for := b.sdcard_metadata.length
    let t := traverse_pc_directory_exif parseDT excl exts b.earliest pcWalk
      b.sdcard_metadata
    let log := log ++
      (if looking_for ≠ t.found_files then [Msg.warnFound t.found_files looking_for]
       else [])
    if t.sdcard_metadata.isEmpty then
      ⟨0, false, log ++ [.infoAllFound]⟩
    else
      ⟨0, false, log ++ [.reportMissing (t.sdcard_metadata.map Prod.snd)]⟩

/-! ## Concrete fixtures

Small concrete inputs used by the closed counterexample and witness
theorems below. -/

/-- An EXIF structure with none of the four fields present. -/
def emptyTags : ExifTags := ⟨none, none, none, none⟩

/-- A target file inside `a/b`, i.e. under the subdirectory `a`. -/
def xJpgUnderA : SFile := ⟨"x.jpg", "/pc/a/b/x.jpg", some 5, none, none, none⟩

/-- The `search` predicate of the anchored exclusion regex `^a$`: it matches
the relative path `a` and nothing else. -/
def exclTopA : String → Bool := fun s => decide (s = "a")

/-- An `os.walk` run of a target tree `. / a / a/b` with one candidate file
inside `a/b`. -/
def walkUnderA : List WalkEntry := [⟨".", []⟩, ⟨"a", []⟩, ⟨"a/b", [xJpgUnderA]⟩]

/-- Two distinct SD-card files whose blake3 hashes collide. -/
def sdDupA : SFile := ⟨"a.jpg", "/sd/a.jpg", none, none, none, some "abc"⟩

/-- See `sdDupA`. -/
def sdDupB : SFile := ⟨"b.jpg", "/sd/b.jpg", none, none, none, some "abc"⟩

/-- A `datetime.strptime(...).timestamp()` oracle that parses every date
string to the timestamp 100. -/
def parse100 : String → Option Int := fun _ => some 100

/-- A `datetime.strptime(...).timestamp()` oracle that always raises. -/
def parseFail : String → Option Int := fun _ => none

/-- An SD-card image carrying a capture date (parsed by `parse100`). -/
def sdDated : SFile :=
  ⟨"d.jpg", "/sd/d.jpg", none, some ⟨some "2024:01:01 00:00:00", none, none, none⟩,
    none, none⟩

/-- A target candidate whose modification time 50 predates `sdDated`'s
capture timestamp 100. -/
def oldTarget : SFile := ⟨"o.jpg", "/pc/o.jpg", some 50, some emptyTags, none, none⟩

/-- An SD-card image that opens fine but has none of the four EXIF fields. -/
def exifLess1 : SFile := ⟨"c.jpg", "/sd/c.jpg", none, some emptyTags, none, none⟩

/-- A second, distinct EXIF-less SD-card image. -/
def exifLess2 : SFile := ⟨"e.jpg", "/sd/e.jpg", none, some emptyTags, none, none⟩

/-- An EXIF-less target image. -/
def exifLessTarget : SFile := ⟨"t.jpg", "/pc/t.jpg", some 7, some emptyTags, none, none⟩

/-- A target file whose blake3 hash matches `sdDupA`'s. -/
def blakeTarget : SFile := ⟨"e.jpg", "/pc/e.jpg", some 9, none, none, some "abc"⟩

/-- An SD-card file whose hashing raises (unreadable content). -/
def sdUnreadable : SFile := ⟨"u.jpg", "/sd/u.jpg", none, none, none, none⟩

/-- An exif-variant candidate whose fingerprinting raises. -/
def failTarget : SFile := ⟨"f.jpg", "/pc/f.jpg", some 3, none, none, none⟩

section PyDictLemmas

variable {K V : Type}

theorem dictContains_iff_mem_keys [DecidableEq K] (d : PyDict K V) (k : K) :
    dictContains d k = true ↔ k ∈ d.map Prod.fst := by
  induction d with
  | nil => simp [dictContains]
  | cons p d ih =>
    simp only [dictContains, Bool.or_eq_true, decide_eq_true_eq, List.map_cons,
      List.mem_cons, ih]
    exact or_congr ⟨Eq.symm, Eq.symm⟩ Iff.rfl

theorem dictErase_sublist [DecidableEq K] (d : PyDict K V) (k : K) :
    (dictErase d k).Sublist d := by
  induction d with
  | nil => simp [dictErase]
  | cons p d ih =>
    by_cases hp : p.1 = k
    · simp only [dictErase, if_pos hp]
      exact ih.cons p
    · simp only [dictErase, if_neg hp]
      exact ih.cons₂ p

theorem dictContains_eq_false_of_sublist [DecidableEq K] {d₁ d₂ : PyDict K V} {k : K}
    (hs : d₁.Sublist d₂) (h : dictContains d₂ k = false) : dictContains d₁ k = false := by
  rw [← Bool.not_eq_true] at h ⊢
  intro h1
  exact h ((dictContains_iff_mem_keys d₂ k).mpr ((hs.map Prod.fst).mem
    ((dictContains_iff_mem_keys d₁ k).mp h1)))

theorem dictContains_dictErase_self [DecidableEq K] (d : PyDict K V) (k : K) :
    dictContains (dictErase d k) k = false := by
  induction d with
  | nil => simp [dictErase, dictContains]
  | cons p d ih =>
    by_cases hp : p.1 = k
    · simpa [dictErase, hp] using ih
    · simpa [dictErase, dictContains, hp] using ih

theorem dictErase_eq_self_of_not_contains [DecidableEq K] {d : PyDict K V} {k : K}
    (h : dictContains d k = false) : dictErase d k = d := by
  induction d with
  | nil => simp [dictErase]
  | cons p d ih =>
    simp only [dictContains, Bool.or_eq_false_iff, decide_eq_false_iff_not] at h
    simp [dictErase, h.1, ih h.2]

theorem length_dictErase_of_contains [DecidableEq K] {d : PyDict K V} {k : K}
    (hnd : PyDictNodup d) (h : dictContains d k = true) :
    (dictErase d k).length + 1 = d.length := by
  induction d with
  | nil => simp [dictContains] at h
  | cons p d ih =>
    simp only [PyDictNodup, List.map_cons, List.nodup_cons] at hnd
    by_cases hp : p.1 = k
    · have hrest : dictContains d k = false := by
        rw [← Bool.not_eq_true]
        intro hc
        exact hnd.1 (hp ▸ ((dictContains_iff_mem_keys d k).mp hc))
      simp [dictErase, hp, dictErase_eq_self_of_not_contains hrest]
    · have h' : dictContains d k = true := by
        simp only [dictContains, Bool.or_eq_true, decide_eq_true_eq] at h
        rcases h with h | h
        · exact absurd h hp
        · exact h
      have := ih hnd.2 h'
      simp only [dictErase, if_neg hp, List.length_cons]
      omega

theorem pyDictNodup_sublist {d₁ d₂ : PyDict K V} (hs : d₁.Sublist d₂)
    (h : PyDictNodup d₂) : PyDictNodup d₁ :=
  List.Nodup.sublist (List.Sublist.map Prod.fst hs) h

theorem dictContains_dictInsert_of_ne [DecidableEq K] (d : PyDict K V) {k k' : K} (v : V)
    (h : k' ≠ k) : dictContains (dictInsert d k v) k' = dictContains d k' := by
  induction d with
  | nil => simp [dictInsert, dictContains, Ne.symm h]
  | cons p d ih =>
    by_cases hp : p.1 = k
    · simp [dictInsert, dictContains, hp, Ne.symm h]
    · simp [dictInsert, dictContains, hp, ih]

theorem dictLookup_dictInsert_self [DecidableEq K] (d : PyDict K V) (k : K) (v : V) :
    dictLookup (dictInsert d k v) k = some v := by
  induction d with
  | nil => simp [dictInsert, dictLookup]
  | cons p d ih =>
    by_cases hp : p.1 = k
    · simp [dictInsert, dictLookup, hp]
    · simp [dictInsert, dictLookup, hp, ih]

end PyDictLemmas

/-! ## Helper lemmas about the scanning loops -/

theorem scanExif_sublist (parseDT : String → Option Int) (earliest : Option Int)
    (l : List (SFile × Int)) (m : PyDict (Option Fp) String) (found : Nat) :
    (scanExif parseDT earliest l m found).sdcard_metadata.Sublist m := by
  induction l generalizing m found with
  | nil => simp [scanExif]
  | cons c rest ih =>
    by_cases hcut : cutoffHit earliest c.2
    · simp [scanExif, hcut]
    · by_cases hmem : dictContains m (traversalFingerprint parseDT c.1)
      · by_cases hemp : (dictErase m (traversalFingerprint parseDT c.1)).isEmpty
        · simp [scanExif, hcut, hmem, hemp, dictErase_sublist]
        · simpa [scanExif, hcut, hmem, hemp] using
            (ih _ _).trans (dictErase_sublist m _)
      · simpa [scanExif, hcut, hmem] using ih m found

theorem scanExif_trace_prefixOf (parseDT : String → Option Int) (earliest : Option Int)
    (l : List (SFile × Int)) (m : PyDict (Option Fp) String) (found : Nat) :
    (scanExif parseDT earliest l m found).trace <+: l := by
  induction l generalizing m found with
  | nil => simp [scanExif]
  | cons c rest ih =>
    by_cases hcut : cutoffHit earliest c.2
    · simp [scanExif, hcut]
    · by_cases hmem : dictContains m (traversalFingerprint parseDT c.1)
      · by_cases hemp : (dictErase m (traversalFingerprint parseDT c.1)).isEmpty
        · have h2 : (scanExif parseDT earliest (c :: rest) m found).trace = [c] := by
            simp [scanExif, hcut, hmem, hemp]
          rw [h2]
          exact List.cons_prefix_cons.mpr ⟨rfl, List.nil_prefix⟩
        · have h2 : (scanExif parseDT earliest (c :: rest) m found).trace
              = c :: (scanExif parseDT earliest rest
                  (dictErase m (traversalFingerprint parseDT c.1)) (found + 1)).trace := by
            simp [scanExif, hcut, hmem, hemp]
          rw [h2]
          exact List.cons_prefix_cons.mpr ⟨rfl, ih _ _⟩
      · have h2 : (scanExif parseDT earliest (c :: rest) m found).trace
            = c :: (scanExif parseDT earliest rest m found).trace := by
          simp [scanExif, hcut, hmem]
        rw [h2]
        exact List.cons_prefix_cons.mpr ⟨rfl, ih m found⟩

theorem scanExif_found_add_length (parseDT : String → Option Int)
    (earliest : Option Int) (l : List (SFile × Int))
    (m : PyDict (Option Fp) String) (found : Nat) (hnd : PyDictNodup m) :
    (scanExif parseDT earliest l m found).found_files
      + (scanExif parseDT earliest l m found).sdcard_metadata.length
      = found + m.length := by
  induction l generalizing m found with
  | nil => simp [scanExif]
  | cons c rest ih =>
    by_cases hcut : cutoffHit earliest c.2
    · simp [scanExif, hcut]
    · by_cases hmem : dictContains m (traversalFingerprint parseDT c.1)
      · have hlen := length_dictErase_of_contains hnd hmem
        by_cases hemp : (dictErase m (traversalFingerprint parseDT c.1)).isEmpty
        · simp only [scanExif, hcut, hmem, hemp]
          simp only [if_false, if_true, Bool.false_eq_true]
          omega
        · have hnd2 := pyDictNodup_sublist (dictErase_sublist m
            (traversalFingerprint parseDT c.1)) hnd
          have := ih (dictErase m (traversalFingerprint parseDT c.1)) (found + 1) hnd2
          simp only [scanExif, hcut, hmem, hemp]
          simp only [if_false, if_true, Bool.false_eq_true]
          omega
      · simpa [scanExif, hcut, hmem] using ih m found hnd

theorem scanExif_trace_mtime (parseDT : String → Option Int) (T : Int)
    (hT0 : T ≠ 0) (l : List (SFile × Int)) (m : PyDict (Option Fp) String)
    (found : Nat) :
    ∀ c ∈ (scanExif parseDT (some T) l m found).trace, T ≤ c.2 := by
  induction l generalizing m found with
  | nil => simp [scanExif]
  | cons c rest ih =>
    by_cases hcut : cutoffHit (some T) c.2
    · simp [scanExif, hcut]
    · have hle : T ≤ c.2 := by
        have hnlt : ¬ (c.2 < T) := by
          intro hlt
          exact hcut (by simp [cutoffHit, hT0, hlt])
        exact not_lt.mp hnlt
      by_cases hmem : dictContains m (traversalFingerprint parseDT c.1)
      · by_cases hemp : (dictErase m (traversalFingerprint parseDT c.1)).isEmpty
        · intro x hx
          simp only [scanExif, hcut, hmem, hemp] at hx
          simp only [if_false, if_true, Bool.false_eq_true, List.mem_singleton] at hx
          exact hx ▸ hle
        · intro x hx
          simp only [scanExif, hcut, hmem, hemp] at hx
          simp only [if_false, if_true, Bool.false_eq_true, List.mem_cons] at hx
          rcases hx with rfl | hx
          · exact hle
          · exact ih _ _ x hx
      · intro x hx
        simp only [scanExif, hcut, hmem] at hx
        simp only [if_false, Bool.false_eq_true, List.mem_cons] at hx
        rcases hx with rfl | hx
        · exact hle
        · exact ih _ _ x hx

theorem scanBlake3_sublist (l : List (SFile × Int))
    (m : PyDict (Option String) String) :
    (scanBlake3 l m).sdcard_hashes.Sublist m := by
  induction l generalizing m with
  | nil => simp [scanBlake3]
  | cons c rest ih =>
    by_cases hmem : dictContains m (get_file_hash c.1)
    · by_cases hemp : (dictErase m (get_file_hash c.1)).isEmpty
      · simp [scanBlake3, hmem, hemp, dictErase_sublist]
      · simpa [scanBlake3, hmem, hemp] using
          (ih _).trans (dictErase_sublist m _)
    · simpa [scanBlake3, hmem] using ih m

theorem scanBlake3_trace_prefixOf (l : List (SFile × Int))
    (m : PyDict (Option String) String) :
    (scanBlake3 l m).trace <+: l := by
  induction l generalizing m with
  | nil => simp [scanBlake3]
  | cons c rest ih =>
    by_cases hmem : dictContains m (get_file_hash c.1)
    · by_cases hemp : (dictErase m (get_file_hash c.1)).isEmpty
      · have h2 : (scanBlake3 (c :: rest) m).trace = [c] := by
          simp [scanBlake3, hmem, hemp]
        rw [h2]
        exact List.cons_prefix_cons.mpr ⟨rfl, List.nil_prefix⟩
      · have h2 : (scanBlake3 (c :: rest) m).trace
            = c :: (scanBlake3 rest (dictErase m (get_file_hash c.1))).trace := by
          simp [scanBlake3, hmem, hemp]
        rw [h2]
        exact List.cons_prefix_cons.mpr ⟨rfl, ih _⟩
    · have h2 : (scanBlake3 (c :: rest) m).trace = c :: (scanBlake3 rest m).trace := by
        simp [scanBlake3, hmem]
      rw [h2]
      exact List.cons_prefix_cons.mpr ⟨rfl, ih m⟩

/-! ## Helper lemmas about the catalog builders -/

theorem truthyFp_some {o : Option Fp} (h : truthyFp o = true) : ∃ fp, o = some fp := by
  cases o with
  | none => simp [truthyFp] at h
  | some fp => exact ⟨fp, rfl⟩

theorem truthyTs_some {o : Option Int} (h : truthyTs o = true) :
    ∃ t, o = some t ∧ t ≠ 0 := by
  cases o with
  | none => simp [truthyTs] at h
  | some t => exact ⟨t, rfl, by simpa [truthyTs] using h⟩

theorem buildBStep_hashes_congr (exts : List String) (st st' : BuildB) (f : SFile)
    (h : st.sdcard_hashes = st'.sdcard_hashes) :
    (buildBStep exts st f).sdcard_hashes = (buildBStep exts st' f).sdcard_hashes := by
  by_cases hext : endsWithAny (lowerStr f.name) exts
  · cases hfh : get_file_hash f with
    | none => simp [buildBStep, hext, hfh, truthyStr, h]
    | some s =>
      by_cases hs : s = ""
      · simp [buildBStep, hext, hfh, truthyStr, hs, h]
      · simp [buildBStep, hext, hfh, truthyStr, hs, h]
  · simp [buildBStep, hext, h]

theorem buildBFold_hashes_congr (exts : List String) (files : List SFile) :
    ∀ st st' : BuildB, st.sdcard_hashes = st'.sdcard_hashes →
      (files.foldl (buildBStep exts) st).sdcard_hashes
        = (files.foldl (buildBStep exts) st').sdcard_hashes := by
  induction files with
  | nil => exact fun st st' h => h
  | cons f fs ih =>
    intro st st' h
    simp only [List.foldl_cons]
    exact ih _ _ (buildBStep_hashes_congr exts st st' f h)

theorem buildBStep_log_expand (exts : List String) (st : BuildB) (f : SFile) :
    ∃ tl, (buildBStep exts st f).log = st.log ++ tl := by
  by_cases hext : endsWithAny (lowerStr f.name) exts
  · cases hfh : get_file_hash f with
    | none => exact ⟨[.errHash f.path], by simp [buildBStep, hext, hfh, truthyStr]⟩
    | some s =>
      by_cases hs : s = ""
      · exact ⟨[], by simp [buildBStep, hext, hfh, truthyStr, hs]⟩
      · exact ⟨[], by simp [buildBStep, hext, hfh, truthyStr, hs]⟩
  · exact ⟨[], by simp [buildBStep, hext]⟩

theorem buildBFold_log_expand (exts : List String) (files : List SFile) :
    ∀ st : BuildB, ∃ tl, (files.foldl (buildBStep exts) st).log = st.log ++ tl := by
  induction files with
  | nil => exact fun st => ⟨[], by simp⟩
  | cons f fs ih =>
    intro st
    obtain ⟨t1, h1⟩ := buildBStep_log_expand exts st f
    obtain ⟨t2, h2⟩ := ih (buildBStep exts st f)
    exact ⟨t1 ++ t2, by rw [List.foldl_cons, h2, h1, List.append_assoc]⟩

theorem buildBStep_contains_none (exts : List String) (st : BuildB) (f : SFile)
    (h : dictContains st.sdcard_hashes none = false) :
    dictContains (buildBStep exts st f).sdcard_hashes none = false := by
  by_cases hext : endsWithAny (lowerStr f.name) exts
  · cases hfh : get_file_hash f with
    | none => simpa [buildBStep, hext, hfh, truthyStr] using h
    | some s =>
      by_cases hs : s = ""
      · simpa [buildBStep, hext, hfh, truthyStr, hs] using h
      · have hgoal : (buildBStep exts st f).sdcard_hashes
            = dictInsert st.sdcard_hashes (some s) f.path := by
          simp [buildBStep, hext, hfh, truthyStr, hs]
        rw [hgoal, dictContains_dictInsert_of_ne _ _ (by simp)]
        exact h
  · simpa [buildBStep, hext] using h

theorem buildB_contains_none (exts : List String) (files : List SFile) :
    dictContains (build_sdcard_hashmap exts files).sdcard_hashes none = false := by
  unfold build_sdcard_hashmap
  suffices h : ∀ st : BuildB, dictContains st.sdcard_hashes none = false →
      dictContains ((files.foldl (buildBStep exts) st)).sdcard_hashes none = false by
    exact h ⟨[], []⟩ (by simp [dictContains])
  induction files with
  | nil => exact fun st h => h
  | cons f fs ih => exact fun st h => ih _ (buildBStep_contains_none exts st f h)

theorem buildXStep_metadata_shape (parseDT : String → Option Int)
    (exts : List String) (st : BuildX) (f : SFile) :
    (buildXStep parseDT exts st f).sdcard_metadata = st.sdcard_metadata
      ∨ ∃ fp : Fp, (buildXStep parseDT exts st f).sdcard_metadata
          = dictInsert st.sdcard_metadata (some fp) f.path := by
  by_cases hext : endsWithAny (lowerStr f.name) exts
  · by_cases htr : truthyFp (buildFingerprint parseDT f).1
    · rcases truthyFp_some htr with ⟨fp, hfp⟩
      have htr' : truthyFp (some fp) = true := hfp ▸ htr
      refine Or.inr ⟨fp, ?_⟩
      simp only [buildXStep, hext, htr, htr', hfp, if_true]
      split <;> (try split) <;> (try split) <;> (try split) <;>
        simp [apply_ite (f := BuildX.sdcard_metadata)]
    · simp [buildXStep, hext, htr]
  · simp [buildXStep, hext]

theorem buildXStep_earliest_shape (parseDT : String → Option Int)
    (exts : List String) (st : BuildX) (f : SFile) :
    (buildXStep parseDT exts st f).earliest = st.earliest
      ∨ ∃ ts : Int, (buildXStep parseDT exts st f).earliest = some ts ∧ ts ≠ 0 := by
  by_cases hext : endsWithAny (lowerStr f.name) exts
  · by_cases htr : truthyFp (buildFingerprint parseDT f).1
    · by_cases hts : truthyTs (buildFingerprint parseDT f).2
      · rcases truthyTs_some hts with ⟨ts, hts2, hts0⟩
        have hts' : truthyTs (some ts) = true := hts2 ▸ hts
        simp only [buildXStep, hext, htr, hts2, hts', if_true]
        split
        next cap x ts' heq1 heq2 =>
          cases heq1
          exact Or.inr ⟨ts, rfl, hts0⟩
        next cap x ts' e heq1 heq2 =>
          cases heq1
          split
          · exact Or.inr ⟨ts, rfl, hts0⟩
          · refine Or.inl ?_
            split <;> rfl
        next cap x heq1 =>
          exact absurd heq1 (by simp)
      · simp [buildXStep, hext, htr, hts, apply_ite (f := BuildX.earliest)]
    · simp [buildXStep, hext, htr]
  · simp [buildXStep, hext]

theorem buildXStep_contains_none (parseDT : String → Option Int)
    (exts : List String) (st : BuildX) (f : SFile)
    (h : dictContains st.sdcard_metadata none = false) :
    dictContains (buildXStep parseDT exts st f).sdcard_metadata none = false := by
  rcases buildXStep_metadata_shape parseDT exts st f with hs | ⟨fp, hs⟩
  · rw [hs]; exact h
  · rw [hs, dictContains_dictInsert_of_ne _ _ (by simp)]; exact h

theorem buildX_contains_none (parseDT : String → Option Int)
    (exts : List String) (files : List SFile) :
    dictContains (build_sdcard_metadata parseDT exts files).sdcard_metadata
      none = false := by
  have hfold : ∀ st : BuildX, dictContains st.sdcard_metadata none = false →
      dictContains ((files.foldl (buildXStep parseDT exts) st)).sdcard_metadata
        none = false := by
    induction files with
    | nil => exact fun st h => h
    | cons f fs ih =>
      exact fun st h => ih _ (buildXStep_contains_none parseDT exts st f h)
  have h0 := hfold ⟨[], none, 0, []⟩ (by simp [dictContains])
  simp only [build_sdcard_metadata]
  split
  · exact h0
  · exact h0

theorem buildXFold_earliest_ne_zero (parseDT : String → Option Int)
    (exts : List String) (files : List SFile) :
    ∀ st : BuildX, (∀ t, st.earliest = some t → t ≠ 0) →
      ∀ t, ((files.foldl (buildXStep parseDT exts) st)).earliest = some t → t ≠ 0 := by
  induction files with
  | nil => exact fun st hst => hst
  | cons f fs ih =>
    intro st hst
    apply ih
    intro t ht
    rcases buildXStep_earliest_shape parseDT exts st f with hsh | ⟨ts, hsh, hts⟩
    · exact hst t (hsh.symm.trans ht)
    · have h2 := hsh.symm.trans ht
      injection h2 with h2
      exact h2 ▸ hts

theorem buildX_earliest_ne_zero (parseDT : String → Option Int)
    (exts : List String) (files : List SFile) (T : Int)
    (h : (build_sdcard_metadata parseDT exts files).earliest = some T) : T ≠ 0 := by
  apply buildXFold_earliest_ne_zero parseDT exts files ⟨[], none, 0, []⟩
    (by intro t ht; simp at ht) T
  simp only [build_sdcard_metadata] at h
  split at h
  · exact h
  · exact h

/-! ## Claim theorems -/

theorem strHasPrefix_exists {p s : String} (h : strHasPrefix p s = true) :
    ∃ t : String, s = p ++ t := by
  have h2 : p.data <+: s.data := by
    simpa [strHasPrefix, List.isPrefixOf_iff_prefix] using h
  obtain ⟨t, ht⟩ := h2
  refine ⟨⟨t⟩, ?_⟩
  apply String.ext
  simpa [String.append] using ht.symm

/-- C1 (amended): a directory whose relative path matches the exclusion regex
contributes no candidates itself, and the whole subtree under it contributes
none provided the regex keeps matching when the relative path is extended by
a path separator (true of substring searches without an end anchor).  The
claim as frozen — that the entire subtree is always skipped — is refuted by
`claim_c1_counterexample`: the `continue` in the walk loop skips only the
matching directory and never prunes `dirs`, so descendants are re-tested
individually. -/
theorem claim_c1_subtree_exclusion (excl : String → Bool) (extensions : List String)
    (walk : List WalkEntry) (r : String)
    (hr : excl r = true)
    (hcl : ∀ s : String, excl (r ++ "/" ++ s) = true) :
    collectCandidates (some excl) extensions
      (walk.filter (fun e => isUnder r e.rel)) = [] := by
  induction walk with
  | nil => rfl
  | cons e rest ih =>
    by_cases hu : isUnder r e.rel
    · have hg : matchGuard (some excl) e.rel = true := by
        simp only [isUnder, Bool.or_eq_true, decide_eq_true_eq] at hu
        rcases hu with hu | hu
        · simpa [matchGuard, hu] using hr
        · obtain ⟨t, ht⟩ := strHasPrefix_exists hu
          simpa [matchGuard, ht] using hcl t
      simp only [List.filter_cons, hu, if_true]
      simpa [collectCandidates, hg] using ih
    · simpa [List.filter_cons, hu] using ih

/-- C1 counterexample: with the end-anchored exclusion regex `^a$` (whose
`search` predicate is `exclTopA`), the directory `a` matches, `a/b` lies in
the subtree under it, and yet the file in `a/b` still becomes a candidate —
the excluded subtree contributed a candidate, refuting the claim that the
entire subtree is skipped. -/
theorem claim_c1_counterexample :
    matchGuard (some exclTopA) "a" = true
    ∧ isUnder "a" "a/b" = true
    ∧ collectCandidates (some exclTopA) [".jpg"] walkUnderA = [(xJpgUnderA, 5)] :=
  ⟨by decide, by decide, by decide⟩

/-- C1 witness: the amended theorem applied at a concrete input (the
everywhere-true exclusion predicate, which trivially survives extension). -/
theorem claim_c1_witness :
    (fun _ : String => true) "a" = true
    ∧ collectCandidates (some (fun _ : String => true)) [".jpg"]
        (walkUnderA.filter (fun e => isUnder "a" e.rel)) = [] :=
  ⟨rfl, claim_c1_subtree_exclusion (fun _ => true) [".jpg"] walkUnderA "a" rfl
    (fun _ => rfl)⟩

/-- C2 counterexample: two distinct SD-card files collide on the blake3
fingerprint `"abc"`; `build_sdcard_hashmap` keeps the later path but prints
nothing at all — the collision is silently dropped without warning, refuting
the claim for the blake3 builder (lines 27-36 have no duplicate check). -/
theorem claim_c2_counterexample :
    sdDupA.path ≠ sdDupB.path
    ∧ get_file_hash sdDupA = get_file_hash sdDupB
    ∧ (build_sdcard_hashmap [".jpg"] [sdDupA, sdDupB]).log = []
    ∧ dictLookup (build_sdcard_hashmap [".jpg"] [sdDupA, sdDupB]).sdcard_hashes
        (some "abc") = some "/sd/b.jpg" :=
  ⟨by decide, by decide, by decide, by decide⟩

/-- C2 (amended): the exif builder `build_sdcard_metadata` does behave as
claimed (lines 59-62): when a file's truthy fingerprint already occupies the
catalog, the step prints a duplicate warning naming the new and the old path
and overwrites the entry with the later path.  The blake3 builder keeps the
later path too but emits no warning (see `claim_c2_counterexample`). -/
theorem claim_c2_exif_collision_warning (parseDT : String → Option Int)
    (extensions : List String) (st : BuildX) (f : SFile) (oldPath : String)
    (hext : endsWithAny (lowerStr f.name) extensions = true)
    (htr : truthyFp (buildFingerprint parseDT f).1 = true)
    (hmem : dictContains st.sdcard_metadata (buildFingerprint parseDT f).1 = true)
    (hold : dictLookup st.sdcard_metadata (buildFingerprint parseDT f).1
      = some oldPath) :
    (buildXStep parseDT extensions st f).log
      = st.log ++ [Msg.warnDup f.path (some oldPath)]
    ∧ dictLookup (buildXStep parseDT extensions st f).sdcard_metadata
        (buildFingerprint parseDT f).1 = some f.path := by
  rcases truthyFp_some htr with ⟨fp, hfp⟩
  have htr' : truthyFp (some fp) = true := hfp ▸ htr
  have hmem' : dictContains st.sdcard_metadata (some fp) = true := hfp ▸ hmem
  have hold' : dictLookup st.sdcard_metadata (some fp) = some oldPath := hfp ▸ hold
  constructor
  · simp only [buildXStep, hext, htr, htr', hfp, hmem', hold', if_true]
    split <;> (try split) <;> (try split) <;>
      simp [apply_ite (f := BuildX.log), hmem', hold']
  · simp only [buildXStep, hext, htr, htr', hfp, hmem', if_true]
    split <;> (try split) <;> (try split) <;>
      simp [apply_ite (f := BuildX.sdcard_metadata), hmem',
        dictLookup_dictInsert_self]

/-- C2 witness: the amended theorem applied at a concrete collision — two
EXIF-less images share the constant fingerprint; processing the second warns
and overwrites. -/
theorem claim_c2_witness :
    endsWithAny (lowerStr exifLess2.name) [".jpg"] = true
    ∧ (buildXStep parseFail [".jpg"]
        ⟨[(some (Fp.str "None-None | None | None"), "/sd/c.jpg")], none, 1, []⟩
        exifLess2).log
      = [] ++ [Msg.warnDup "/sd/e.jpg" (some "/sd/c.jpg")] :=
  ⟨by decide,
    (claim_c2_exif_collision_warning parseFail [".jpg"]
      ⟨[(some (Fp.str "None-None | None | None"), "/sd/c.jpg")], none, 1, []⟩
      exifLess2 "/sd/c.jpg" (by decide) (by decide) (by decide) (by decide)).1⟩

/-- C3: processing a candidate whose fingerprint is a key of the catalog
removes exactly one entry (the catalog's size drops by one), that fingerprint
is absent immediately after the deletion and still absent in the catalog the
whole traversal returns, and the catalog never gains an entry during a scan
(its final value is a sublist of its initial value, for every candidate list
and starting catalog). -/
theorem claim_c3_catalog_shrink (parseDT : String → Option Int)
    (earliest : Option Int) (c : SFile × Int) (rest : List (SFile × Int))
    (m : PyDict (Option Fp) String) (found : Nat)
    (hnd : PyDictNodup m)
    (hcut : cutoffHit earliest c.2 = false)
    (hmem : dictContains m (traversalFingerprint parseDT c.1) = true) :
    (dictErase m (traversalFingerprint parseDT c.1)).length + 1 = m.length
    ∧ dictContains (dictErase m (traversalFingerprint parseDT c.1))
        (traversalFingerprint parseDT c.1) = false
    ∧ dictContains (scanExif parseDT earliest (c :: rest) m found).sdcard_metadata
        (traversalFingerprint parseDT c.1) = false
    ∧ (∀ (l : List (SFile × Int)) (m' : PyDict (Option Fp) String) (f : Nat),
        (scanExif parseDT earliest l m' f).sdcard_metadata.Sublist m') := by
  refine ⟨length_dictErase_of_contains hnd hmem,
    dictContains_dictErase_self m _, ?_,
    fun l m' f => scanExif_sublist parseDT earliest l m' f⟩
  have herase := dictContains_dictErase_self m (traversalFingerprint parseDT c.1)
  by_cases hemp : (dictErase m (traversalFingerprint parseDT c.1)).isEmpty
  · have h2 : (scanExif parseDT earliest (c :: rest) m found).sdcard_metadata
        = dictErase m (traversalFingerprint parseDT c.1) := by
      simp [scanExif, hcut, hmem, hemp]
    rw [h2]
    exact herase
  · have h2 : (scanExif parseDT earliest (c :: rest) m found).sdcard_metadata
        = (scanExif parseDT earliest rest
            (dictErase m (traversalFingerprint parseDT c.1))
            (found + 1)).sdcard_metadata := by
      simp [scanExif, hcut, hmem, hemp]
    rw [h2]
    exact dictContains_eq_false_of_sublist
      (scanExif_sublist parseDT earliest rest _ (found + 1)) herase

/-- C3 witness: the theorem applied at a concrete one-entry catalog matched
by a concrete candidate. -/
theorem claim_c3_witness :
    PyDictNodup [(some (Fp.str "None-None | None | None"), "/sd/c.jpg")]
    ∧ dictContains [(some (Fp.str "None-None | None | None"), "/sd/c.jpg")]
        (traversalFingerprint parseFail exifLessTarget) = true
    ∧ dictContains
        (scanExif parseFail none [(exifLessTarget, 7)]
          [(some (Fp.str "None-None | None | None"), "/sd/c.jpg")] 0).sdcard_metadata
        (traversalFingerprint parseFail exifLessTarget) = false :=
  ⟨by simp [PyDictNodup], by decide,
    (claim_c3_catalog_shrink parseFail none (exifLessTarget, 7) []
      [(some (Fp.str "None-None | None | None"), "/sd/c.jpg")] 0
      (by simp [PyDictNodup]) (by decide) (by decide)).2.2.1⟩

/-- C4: whenever the exif pipeline sets a CutoffTimestamp (the builder's
`earliest_capture_timestamp` is `some T` — which the builder only produces
with `T ≠ 0`, since `if capture_timestamp:` skips falsy timestamps), the
traversal run with that cutoff never fingerprints a candidate whose
modification time is strictly below `T`, and the fingerprinted candidates
form a prefix of the newest-first sorted candidate list, i.e. the scan halts
at the first too-old candidate it reaches. -/
theorem claim_c4_cutoff (parseDT : String → Option Int)
    (extensions pexts : List String) (files : List SFile)
    (excl : Option (String → Bool)) (walk : List WalkEntry) (T : Int)
    (hT : (build_sdcard_metadata parseDT extensions files).earliest = some T) :
    (∀ c ∈ (traverse_pc_directory_exif parseDT excl pexts
        (build_sdcard_metadata parseDT extensions files).earliest walk
        (build_sdcard_metadata parseDT extensions files).sdcard_metadata).trace,
      T ≤ c.2)
    ∧ (traverse_pc_directory_exif parseDT excl pexts
        (build_sdcard_metadata parseDT extensions files).earliest walk
        (build_sdcard_metadata parseDT extensions files).sdcard_metadata).trace
      <+: List.insertionSort mtimeDesc (collectCandidates excl pexts walk) := by
  have hT0 : T ≠ 0 := buildX_earliest_ne_zero parseDT extensions files T hT
  rw [hT]
  exact ⟨scanExif_trace_mtime parseDT T hT0 _ _ 0,
    scanExif_trace_prefixOf parseDT (some T) _ _ 0⟩

/-- C4 witness: a dated SD-card image sets the cutoff to 100; the only target
candidate has modification time 50, so nothing is fingerprinted. -/
theorem claim_c4_witness :
    (build_sdcard_metadata parse100 [".jpg"] [sdDated]).earliest = some 100
    ∧ ∀ c ∈ (traverse_pc_directory_exif parse100 none [".jpg"]
        (build_sdcard_metadata parse100 [".jpg"] [sdDated]).earliest
        [⟨".", [oldTarget]⟩]
        (build_sdcard_metadata parse100 [".jpg"] [sdDated]).sdcard_metadata).trace,
      (100 : Int) ≤ c.2 :=
  ⟨by decide,
    (claim_c4_cutoff parse100 [".jpg"] [".jpg"] [sdDated] none
      [⟨".", [oldTarget]⟩] 100 (by decide)).1⟩

/-- C5: in both variants the traversal fingerprints candidates in
non-increasing modification-time order: the trace of fingerprinted
candidates is pairwise ordered by `mtimeDesc`. -/
theorem claim_c5_ordering (parseDT : String → Option Int)
    (excl : Option (String → Bool)) (extensions : List String)
    (earliest : Option Int) (walk : List WalkEntry)
    (m : PyDict (Option Fp) String) (m2 : PyDict (Option String) String) :
    (traverse_pc_directory_exif parseDT excl extensions earliest walk m).trace.Pairwise
      mtimeDesc
    ∧ (traverse_pc_directory_blake3 excl extensions walk m2).trace.Pairwise
      mtimeDesc := by
  have hs : List.Sorted mtimeDesc (List.insertionSort mtimeDesc
      (collectCandidates excl extensions walk)) :=
    List.sorted_insertionSort mtimeDesc _
  constructor
  · exact List.Pairwise.sublist (scanExif_trace_prefixOf parseDT earliest
      (List.insertionSort mtimeDesc (collectCandidates excl extensions walk))
      m 0).sublist hs
  · exact List.Pairwise.sublist (scanBlake3_trace_prefixOf
      (List.insertionSort mtimeDesc (collectCandidates excl extensions walk))
      m2).sublist hs

/-- C6 counterexample: the blake3 `traverse_pc_directory` matched one
fingerprint (the catalog shrank to empty), yet its Python return value is
`None`, not the count of matched fingerprints — the blake3 engine returns no
count, refuting the claim as frozen for that variant. -/
theorem claim_c6_counterexample :
    (traverse_pc_directory_blake3 none [".jpg"] [⟨".", [blakeTarget]⟩]
      [(some "abc", "/sd/a.jpg")]).ret = none
    ∧ (traverse_pc_directory_blake3 none [".jpg"] [⟨".", [blakeTarget]⟩]
      [(some "abc", "/sd/a.jpg")]).sdcard_hashes = [] :=
  ⟨by decide, by decide⟩

/-- C6 (amended): the exif `traverse_pc_directory` does return the count of
matched fingerprints — one per removed catalog entry, so the returned
`found_files` plus the size of the residual catalog equals the initial
catalog size — together with the residual catalog of unmatched entries, a
sublist of the original.  The blake3 variant returns no count
(`claim_c6_counterexample`); its residual catalog is its only output. -/
theorem claim_c6_exif_count_and_residual (parseDT : String → Option Int)
    (excl : Option (String → Bool)) (extensions : List String)
    (earliest : Option Int) (walk : List WalkEntry)
    (m : PyDict (Option Fp) String) (hnd : PyDictNodup m) :
    (traverse_pc_directory_exif parseDT excl extensions earliest walk m).found_files
      + (traverse_pc_directory_exif parseDT excl extensions earliest walk
          m).sdcard_metadata.length
      = m.length
    ∧ (traverse_pc_directory_exif parseDT excl extensions earliest walk
        m).sdcard_metadata.Sublist m := by
  constructor
  · simpa using scanExif_found_add_length parseDT earliest
      (List.insertionSort mtimeDesc (collectCandidates excl extensions walk))
      m 0 hnd
  · exact scanExif_sublist parseDT earliest
      (List.insertionSort mtimeDesc (collectCandidates excl extensions walk)) m 0

/-- C6 witness: the amended theorem applied at a concrete two-entry catalog
with one matching target candidate: found-count 1 plus residual size 1
equals initial size 2. -/
theorem claim_c6_witness :
    PyDictNodup [(some (Fp.str "None-None | None | None"), "/sd/c.jpg"),
      (some (Fp.str "other"), "/sd/o.jpg")]
    ∧ (traverse_pc_directory_exif parseFail none [".jpg"] none
        [⟨".", [exifLessTarget]⟩]
        [(some (Fp.str "None-None | None | None"), "/sd/c.jpg"),
          (some (Fp.str "other"), "/sd/o.jpg")]).found_files
      + (traverse_pc_directory_exif parseFail none [".jpg"] none
          [⟨".", [exifLessTarget]⟩]
          [(some (Fp.str "None-None | None | None"), "/sd/c.jpg"),
            (some (Fp.str "other"), "/sd/o.jpg")]).sdcard_metadata.length
      = 2 :=
  ⟨by simp [PyDictNodup],
    (claim_c6_exif_count_and_residual parseFail none [".jpg"] none
      [⟨".", [exifLessTarget]⟩]
      [(some (Fp.str "None-None | None | None"), "/sd/c.jpg"),
        (some (Fp.str "other"), "/sd/o.jpg")] (by simp [PyDictNodup])).1⟩

/-- C7: a source file whose fingerprint computation fails contributes no
catalog entry and does not stop the build: the catalog built from a file
sequence containing the failing file equals the catalog built without it
(the remaining files are all still processed), and the failure is logged. -/
theorem claim_c7_skip_failed (extensions : List String)
    (l₁ l₂ : List SFile) (bad : SFile)
    (hext : endsWithAny (lowerStr bad.name) extensions = true)
    (hfail : bad.hashResult = none) :
    (build_sdcard_hashmap extensions (l₁ ++ bad :: l₂)).sdcard_hashes
      = (build_sdcard_hashmap extensions (l₁ ++ l₂)).sdcard_hashes
    ∧ Msg.errHash bad.path ∈ (build_sdcard_hashmap extensions (l₁ ++ bad :: l₂)).log := by
  unfold build_sdcard_hashmap
  rw [List.foldl_append, List.foldl_append, List.foldl_cons]
  have hstep : buildBStep extensions (l₁.foldl (buildBStep extensions) ⟨[], []⟩) bad
      = ⟨(l₁.foldl (buildBStep extensions) ⟨[], []⟩).sdcard_hashes,
          (l₁.foldl (buildBStep extensions) ⟨[], []⟩).log ++ [.errHash bad.path]⟩ := by
    simp [buildBStep, hext, get_file_hash, hfail, truthyStr]
  rw [hstep]
  constructor
  · exact buildBFold_hashes_congr extensions l₂ _ _ rfl
  · obtain ⟨tl, htl⟩ := buildBFold_log_expand extensions l₂
      ⟨(l₁.foldl (buildBStep extensions) ⟨[], []⟩).sdcard_hashes,
        (l₁.foldl (buildBStep extensions) ⟨[], []⟩).log ++ [.errHash bad.path]⟩
    rw [htl]
    simp

/-- C7 witness: one readable and one unreadable SD-card file; the unreadable
one leaves the catalog unchanged and is logged. -/
theorem claim_c7_witness :
    endsWithAny (lowerStr sdUnreadable.name) [".jpg"] = true
    ∧ (build_sdcard_hashmap [".jpg"] ([sdDupA] ++ sdUnreadable :: [])).sdcard_hashes
        = (build_sdcard_hashmap [".jpg"] ([sdDupA] ++ [])).sdcard_hashes
    ∧ Msg.errHash sdUnreadable.path
        ∈ (build_sdcard_hashmap [".jpg"] ([sdDupA] ++ sdUnreadable :: [])).log := by
  refine ⟨by decide, ?_, ?_⟩
  · exact (claim_c7_skip_failed [".jpg"] [sdDupA] [] sdUnreadable
      (by decide) (by decide)).1
  · exact (claim_c7_skip_failed [".jpg"] [sdDupA] [] sdUnreadable
      (by decide) (by decide)).2

/-- C8: a run whose built source catalog is empty takes the `sys.exit()`
branch: both variants' `main` exits early with status 0 and prints the
informational no-files message. -/
theorem claim_c8_empty_catalog (parseDT : String → Option Int)
    (extensions : List String) (excl : Option (String → Bool))
    (sdFiles : List SFile) (pcWalk : List WalkEntry)
    (hB : (build_sdcard_hashmap (extensions.map lowerStr) sdFiles).sdcard_hashes = [])
    (hX : (build_sdcard_metadata parseDT (extensions.map lowerStr)
        sdFiles).sdcard_metadata = []) :
    (main_blake3 extensions excl sdFiles pcWalk).exitCode = 0
    ∧ (main_blake3 extensions excl sdFiles pcWalk).exitedEarly = true
    ∧ Msg.infoNoFiles ∈ (main_blake3 extensions excl sdFiles pcWalk).log
    ∧ (main_exif parseDT extensions excl sdFiles pcWalk).exitCode = 0
    ∧ (main_exif parseDT extensions excl sdFiles pcWalk).exitedEarly = true
    ∧ Msg.infoNoFiles ∈ (main_exif parseDT extensions excl sdFiles pcWalk).log := by
  refine ⟨?_, ?_, ?_, ?_, ?_, ?_⟩ <;>
    simp [main_blake3, main_exif, hB, hX]

/-- C8 witness: an SD card with no qualifying files (empty walk) exits early
with status 0 in both variants. -/
theorem claim_c8_witness :
    (build_sdcard_hashmap ([".jpg"].map lowerStr) []).sdcard_hashes = []
    ∧ (main_blake3 [".jpg"] none [] []).exitCode = 0
    ∧ (main_exif parseFail [".jpg"] none [] []).exitedEarly = true := by
  refine ⟨by decide, ?_, ?_⟩
  · exact (claim_c8_empty_catalog parseFail [".jpg"] none [] []
      (by decide) (by decide)).1
  · exact (claim_c8_empty_catalog parseFail [".jpg"] none [] []
      (by decide) (by decide)).2.2.2.2.1

/-- C9: an image that opens but yields none of the four EXIF fields gets the
constant fingerprint string `"None-None | None | None"`; two such distinct
source files occupy a single catalog entry (the later path wins), and a
single EXIF-less target image matches it, emptying the catalog with one
found file. -/
theorem claim_c9_exifless_constant (parseDT : String → Option Int)
    (extensions : List String) (f1 f2 g : SFile) (t : Int)
    (h1e : f1.exifResult = some ⟨none, none, none, none⟩)
    (h2e : f2.exifResult = some ⟨none, none, none, none⟩)
    (hge : g.exifResult = some ⟨none, none, none, none⟩)
    (h1x : endsWithAny (lowerStr f1.name) extensions = true)
    (h2x : endsWithAny (lowerStr f2.name) extensions = true)
    (h1i : endsWithAny (lowerStr f1.name) image_endings = true)
    (h2i : endsWithAny (lowerStr f2.name) image_endings = true)
    (hgp : endsWithAny (lowerStr g.path) image_endings = true) :
    (get_image_metadata parseDT f1).1 = some (Fp.str "None-None | None | None")
    ∧ (build_sdcard_metadata parseDT extensions [f1, f2]).sdcard_metadata
        = [(some (Fp.str "None-None | None | None"), f2.path)]
    ∧ (scanExif parseDT none [(g, t)]
        [(some (Fp.str "None-None | None | None"), f2.path)] 0).found_files = 1
    ∧ (scanExif parseDT none [(g, t)]
        [(some (Fp.str "None-None | None | None"), f2.path)] 0).sdcard_metadata
        = [] := by
  have hm : metadataId ⟨none, none, none, none⟩ = "None-None | None | None" := by
    decide
  have hf1 : buildFingerprint parseDT f1
      = (some (Fp.str "None-None | None | None"), none) := by
    simp [buildFingerprint, h1i, get_image_metadata, h1e, hm]
  have hf2 : buildFingerprint parseDT f2
      = (some (Fp.str "None-None | None | None"), none) := by
    simp [buildFingerprint, h2i, get_image_metadata, h2e, hm]
  have hst1 : buildXStep parseDT extensions ⟨[], none, 0, []⟩ f1
      = ⟨[(some (Fp.str "None-None | None | None"), f1.path)], none, 1, []⟩ := by
    simp [buildXStep, h1x, hf1, truthyFp, truthyTs, dictContains, dictInsert]
  have hst2 : buildXStep parseDT extensions
      ⟨[(some (Fp.str "None-None | None | None"), f1.path)], none, 1, []⟩ f2
      = ⟨[(some (Fp.str "None-None | None | None"), f2.path)], none, 2,
          [Msg.warnDup f2.path (some f1.path)]⟩ := by
    simp [buildXStep, h2x, hf2, truthyFp, truthyTs, dictContains, dictInsert,
      dictLookup]
  have hfg : traversalFingerprint parseDT g
      = some (Fp.str "None-None | None | None") := by
    simp [traversalFingerprint, hgp, get_image_metadata, hge, hm]
  refine ⟨by simp [get_image_metadata, h1e, hm], ?_, ?_, ?_⟩
  · simp only [build_sdcard_metadata, List.foldl_cons, List.foldl_nil, hst1, hst2]
    split <;> rfl
  · simp [scanExif, cutoffHit, hfg, dictContains, dictErase]
  · simp [scanExif, cutoffHit, hfg, dictContains, dictErase]

/-- C9 witness: the theorem applied at two concrete EXIF-less SD-card images
and a concrete EXIF-less target image. -/
theorem claim_c9_witness :
    exifLess1.path ≠ exifLess2.path
    ∧ (build_sdcard_metadata parseFail [".jpg"] [exifLess1, exifLess2]).sdcard_metadata
        = [(some (Fp.str "None-None | None | None"), "/sd/e.jpg")]
    ∧ (scanExif parseFail none [(exifLessTarget, 7)]
        [(some (Fp.str "None-None | None | None"), "/sd/e.jpg")] 0).found_files
      = 1 :=
  ⟨by decide,
    (claim_c9_exifless_constant parseFail [".jpg"] exifLess1 exifLess2
      exifLessTarget 7 rfl rfl rfl (by decide) (by decide) (by decide) (by decide)
      (by decide)).2.1,
    (claim_c9_exifless_constant parseFail [".jpg"] exifLess1 exifLess2
      exifLessTarget 7 rfl rfl rfl (by decide) (by decide) (by decide) (by decide)
      (by decide)).2.2.1⟩

/-- C10: the failure value `None` is never a key of either variant's catalog
(the builders insert only truthy fingerprints), so a candidate whose
fingerprint computation fails never matches: its scan step leaves the
found-count and the catalog exactly as scanning the remaining candidates
from the same state would. -/
theorem claim_c10_failed_never_matches (parseDT : String → Option Int)
    (extsB extsX : List String) (filesB filesX : List SFile)
    (earliest : Option Int) (c : SFile × Int) (rest : List (SFile × Int))
    (m : PyDict (Option Fp) String) (found : Nat)
    (hfail : traversalFingerprint parseDT c.1 = none)
    (hnone : dictContains m none = false)
    (hcut : cutoffHit earliest c.2 = false) :
    dictContains (build_sdcard_hashmap extsB filesB).sdcard_hashes none = false
    ∧ dictContains (build_sdcard_metadata parseDT extsX filesX).sdcard_metadata
        none = false
    ∧ (scanExif parseDT earliest (c :: rest) m found).found_files
        = (scanExif parseDT earliest rest m found).found_files
    ∧ (scanExif parseDT earliest (c :: rest) m found).sdcard_metadata
        = (scanExif parseDT earliest rest m found).sdcard_metadata := by
  have hnm : dictContains m (traversalFingerprint parseDT c.1) = false := by
    rw [hfail]
    exact hnone
  refine ⟨buildB_contains_none extsB filesB,
    buildX_contains_none parseDT extsX filesX, ?_, ?_⟩
  · simp [scanExif, hcut, hnm]
  · simp [scanExif, hcut, hnm]

/-- C10 witness: a concrete candidate whose EXIF read raises (`None`
fingerprint) against a one-entry catalog: the step matches nothing. -/
theorem claim_c10_witness :
    traversalFingerprint parseFail failTarget = none
    ∧ (scanExif parseFail none [(failTarget, 3)]
        [(some (Fp.str "x"), "/sd/x.jpg")] 0).found_files
      = (scanExif parseFail none ([] : List (SFile × Int))
          [(some (Fp.str "x"), "/sd/x.jpg")] 0).found_files :=
  ⟨by decide,
    (claim_c10_failed_never_matches parseFail [".jpg"] [".jpg"] [] []
      none (failTarget, 3) [] [(some (Fp.str "x"), "/sd/x.jpg")] 0
      (by decide) (by decide) (by decide)).2.2.1⟩
